import Mathlib

/-!
Shallow embedding of the dlisio binary-decode core (src/lib/src/io.cpp and the
pybind wrappers in src/python/dlisio/ext/core.cpp).  Byte sources are lists of
naturals (each entry one octet), machine integers are Nat/Int with explicit
bounds where they matter, and fallible C++ code (exceptions) returns Except.
-/

/-- Error taxonomy of the embedded code.  Each constructor stands for one
exception path of the C++ source: `notFound` for dl::not_found, `inconsistent`
for the structural runtime errors, `truncated` for fstream reads past EOF,
`vrlMismatch` for the visible-record/segment inconsistency throw,
`nonContiguous` for the non-contiguous record throw, `badIndex` for
std::vector::at out-of-range, `badSeek` for seeking to a negative offset,
`badLength` for a segment length smaller than its own header (undefined
behaviour in the source, surfaced as an error here), `invalidArgument` for
std::invalid_argument, and `fuelOut` for a loop iteration budget running dry
(the embedding of a C++ `while (true)` that never exits). -/
inductive Err where
  | notFound
  | inconsistent
  | truncated
  | vrlMismatch
  | nonContiguous
  | badIndex
  | badSeek
  | badLength
  | invalidArgument
  | unexpectedValue
  | fuelOut
deriving DecidableEq, Repr

/-- Modelled from the spec: segment attribute bit EXPLICIT_FORMAT
(DLIS_SEGATTR_EXFMTLR).  The header dlisio/dlisio.h is not under src/; §3 of
the spec lists the attribute bits in order EXPLICIT_FORMAT, HAS_PREDECESSOR,
HAS_SUCCESSOR, ENCRYPTED, ENCRYPTION_PACKET, HAS_CHECKSUM, HAS_TRAILING_LENGTH,
HAS_PADDING, which is bit 7 down to bit 0 of the attribute byte. -/
def DLIS_SEGATTR_EXFMTLR : Nat := 128

/-- Modelled from the spec: segment attribute bit HAS_PREDECESSOR. -/
def DLIS_SEGATTR_PREDSEG : Nat := 64

/-- Modelled from the spec: segment attribute bit HAS_SUCCESSOR. -/
def DLIS_SEGATTR_SUCCSEG : Nat := 32

/-- Modelled from the spec: segment attribute bit ENCRYPTED
(DLIS_SEGATTR_ENCRYPT). -/
def DLIS_SEGATTR_ENCRYPT : Nat := 16

/-- Modelled from the spec: segment attribute bit ENCRYPTION_PACKET. -/
def DLIS_SEGATTR_ENCRPKT : Nat := 8

/-- Modelled from the spec: segment attribute bit HAS_CHECKSUM. -/
def DLIS_SEGATTR_CHCKSUM : Nat := 4

/-- Modelled from the spec: segment attribute bit HAS_TRAILING_LENGTH. -/
def DLIS_SEGATTR_TRAILEN : Nat := 2

/-- Modelled from the spec: segment attribute bit HAS_PADDING. -/
def DLIS_SEGATTR_PADDING : Nat := 1

/-- The six bytes of the ASCII literal `RECORD`, the needle of findsul
(io.cpp line 45). -/
def RECORDneedle : List Nat := [0x52, 0x45, 0x43, 0x4F, 0x52, 0x44]

/-- std::search over a byte window: the index of the first occurrence of
`needle` fully inside `w`, or none.  Mirrors the call in io.cpp line 50. -/
def searchBytes (w needle : List Nat) : Option Nat :=
  if needle.isPrefixOf w then some 0
  else
    match w with
    | [] => none
    | _ :: t => (searchBytes t needle).map (· + 1)

/-- dl::findsul, io.cpp lines 35-70: search the first min(size, 200) bytes for
the literal `RECORD`; not_found if absent, a runtime error (structural
inconsistency) if it sits before byte 9, else its position minus 9. -/
def findsul (file : List Nat) : Except Err Nat :=
  let window := file.take (min file.length 200)
  match searchBytes window RECORDneedle with
  | none => .error .notFound
  | some i => if i < 9 then .error .inconsistent else .ok (i - 9)

/-- dl::record (record struct of io.hpp as used by io.cpp): the reassembled
payload, the retained attribute bits, the type byte and the consistency bit. -/
structure record where
  data : List Nat
  attributes : Nat
  type : Nat
  consistent : Bool
deriving DecidableEq, Repr

/-- record::isexplicit, io.cpp lines 204-206. -/
def record.isexplicit (r : record) : Bool :=
  r.attributes &&& DLIS_SEGATTR_EXFMTLR ≠ 0

/-- record::isencrypted, io.cpp lines 208-210. -/
def record.isencrypted (r : record) : Bool :=
  r.attributes &&& DLIS_SEGATTR_ENCRYPT ≠ 0

/-- dl::stream as used by io.cpp: the byte source (the open fstream's file
contents) together with the stored index (tells and residuals) and the
contiguity flag consulted by stream::at. -/
structure stream where
  file : List Nat
  tells : List Int
  residuals : List Int
  contiguous : Bool
deriving DecidableEq, Repr

/-- An exact fstream read: `n` bytes at offset `pos`, failing (eofbit) if the
file has fewer. -/
def readBytes (file : List Nat) (pos n : Nat) : Option (List Nat) :=
  if pos + n ≤ file.length then some ((file.drop pos).take n) else none

/-- The chop lambda of stream::at, io.cpp lines 282-291: resize to
max(0, size - bytes), i.e. drop `bytes` from the end, clamping at empty. -/
def chop (vec : List Nat) (bytes : Nat) : List Nat :=
  vec.take (vec.length - bytes)

/-- The trailer-stripping block of stream::at, io.cpp lines 347-359: chop 2
bytes for a trailing length, then 2 for a checksum, then read the last byte as
pad count and chop that many (the pad byte included). -/
def trimSegment (attrs : Nat) (data : List Nat) : List Nat :=
  let data := if attrs &&& DLIS_SEGATTR_TRAILEN ≠ 0 then chop data 2 else data
  let data := if attrs &&& DLIS_SEGATTR_CHCKSUM ≠ 0 then chop data 2 else data
  if attrs &&& DLIS_SEGATTR_PADDING ≠ 0 then
    chop data (data.getLastD 0)
  else data

/-- consumed_record, io.cpp lines 233-243: the last record is always deemed
consumed; otherwise the read cursor must sit exactly at the next tell. -/
def consumed_record (tell : Int) (tells : List Int) (i : Nat) : Bool :=
  if i = tells.length - 1 then true
  else tell = tells.getD (i + 1) 0

/-- Modelled from the spec: dlis_lrsh belongs to the C library, which is not
under src/.  §3 gives the LRSH as 4 bytes: length (u16 big-endian), attribute
byte, type byte, with no failure mode, so the error flag is always false. -/
def dlis_lrsh (b : List Nat) : Nat × Nat × Nat × Bool :=
  (b.getD 0 0 * 256 + b.getD 1 0, b.getD 2 0, b.getD 3 0, false)

/-- Modelled from the spec: dlis_vrl belongs to the C library, which is not
under src/.  §3 gives the VRL as 4 bytes: length (u16 big-endian), a reserved
byte that must be 0xFF, and the format-version byte; the error flag reports a
reserved byte other than 0xFF.  The version is handed back for the caller to
check (io.cpp line 409). -/
def dlis_vrl (b : List Nat) : Nat × Nat × Bool :=
  (b.getD 0 0 * 256 + b.getD 1 0, b.getD 3 0, b.getD 2 0 != 0xFF)

/-- Loop state of stream::at (io.cpp lines 271-413): the read cursor of the
fstream, the bytes remaining in the current visible record, the accumulated
payload, the two consistency accumulators declared at lines 276-277, and the
local consistency flag. -/
structure atState where
  pos : Nat
  remaining : Int
  data : List Nat
  attributes : List Nat
  types : List Nat
  consistent : Bool
deriving DecidableEq, Repr

/-- One iteration of the while-true loop of stream::at, io.cpp lines 293-412:
either the segment branch (the inner while, lines 294-401), which reads an
LRSH and its body, strips trailers and, on a segment without successor,
finishes the record, or the visible-record branch (lines 403-411), which
reads a VRL and replenishes `remaining`.  An inl result continues the loop,
an inr result is the returned record.  Note that the source pushes each
segment's attribute byte into its `attributes` accumulator (line 305) but
never pushes into `types`, although it reads `types.front()` at line 395; the
embedding keeps `types` untouched accordingly. -/
def stream.atStep (s : stream) (i : Nat) (st : atState) :
    Except Err (atState ⊕ record) :=
  if st.remaining > 0 then
    match readBytes s.file st.pos 4 with
    | none => .error .truncated
    | some buffer =>
      let (len, attrs, _ty, lrshErr) := dlis_lrsh buffer
      let pos := st.pos + 4
      let remaining := st.remaining - len
      let consistent := if lrshErr then false else st.consistent
      let attributes := st.attributes ++ [attrs]
      let types := st.types
      if remaining < 0 then .error .vrlMismatch
      else if len < 4 then .error .badLength
      else
        match readBytes s.file pos (len - 4) with
        | none => .error .truncated
        | some body =>
          let pos := pos + (len - 4)
          let data := trimSegment attrs (st.data ++ body)
          if attrs &&& DLIS_SEGATTR_SUCCSEG ≠ 0 then
            .ok (.inl { pos, remaining, data, attributes, types, consistent })
          else if s.contiguous && !consumed_record (pos : Int) s.tells i then
            .error .nonContiguous
          else
            .ok (.inr { data := data
                        attributes := attributes.headD 0 &&&
                          (DLIS_SEGATTR_EXFMTLR ||| DLIS_SEGATTR_ENCRYPT)
                        type := types.headD 0
                        consistent := consistent })
  else
    match readBytes s.file st.pos 4 with
    | none => .error .truncated
    | some buffer =>
      let (len, version, vrlErr) := dlis_vrl buffer
      let consistent := if vrlErr then false else st.consistent
      let consistent := if version ≠ 1 then false else consistent
      .ok (.inl { st with pos := st.pos + 4, remaining := (len : Int) - 4,
                          consistent := consistent })

/-- The while-true loop of stream::at, iterating atStep on explicit fuel
(each iteration reads at least a 4-byte header and advances the cursor). -/
def stream.atLoop (s : stream) (i : Nat) : Nat → atState → Except Err record
  | 0, _ => .error .fuelOut
  | fuel + 1, st =>
    match s.atStep i st with
    | .error e => .error e
    | .ok (.inl st') => stream.atLoop s i fuel st'
    | .ok (.inr r) => .ok r

/-- Iteration budget for the stream::at loop.  Every iteration reads a 4-byte
header at the cursor and advances it, and a read past the end of the file
raises, so the file length comfortably bounds the iteration count. -/
def stream.atFuel (s : stream) : Nat := s.file.length + 1

/-- The two-argument stream::at(i, rec), io.cpp lines 271-413.  The record
argument enters the computation only through its data member (all other
fields are overwritten before any return), so it is passed as the prior
payload bytes.  tells.at(i)/residuals.at(i) raise std::out_of_range for a bad
index, and seeking to a negative tell fails the stream. -/
def stream.at2 (s : stream) (i : Nat) (prior : List Nat) : Except Err record :=
  match s.tells[i]?, s.residuals[i]? with
  | some tell, some residual =>
    if tell < 0 then .error .badSeek
    else stream.atLoop s i s.atFuel
      { pos := tell.toNat, remaining := residual, data := prior,
        attributes := [], types := [], consistent := true }
  | _, _ => .error .badIndex

/-- The one-argument stream::at(i), io.cpp lines 225-229: run the two-argument
overload on a fresh record (the reserve call only affects capacity). -/
def stream.at1 (s : stream) (i : Nat) : Except Err record :=
  s.at2 i []

/-- The loop of the extract binding, core.cpp lines 624-633: call the
one-argument at for every index in turn and push every record it returns. -/
def extractGo (s : stream) : List Nat → List record → Except Err (List record)
  | [], recs => .ok recs
  | i :: rest, recs =>
    match s.at1 i with
    | .error e => .error e
    | .ok rec => extractGo s rest (recs ++ [rec])

/-- The extract binding, core.cpp lines 624-633. -/
def stream.extract (s : stream) (indices : List Nat) : Except Err (List record) :=
  extractGo s indices []

/-- Modelled from the spec: dl::object_set (§4.4) and the single-record parser
dl::parse_objects live in a translation unit that is not under src/.  The
claims below depend only on which records of a batch contribute an object
set, so a set is modelled by the payload it was parsed from. -/
structure object_set where
  payload : List Nat
deriving DecidableEq, Repr

/-- Modelled from the spec: the single-record object-set parser of §4.4,
abstracted to the payload it consumes (see object_set). -/
def dl_parse_objects (data : List Nat) : object_set := ⟨data⟩

/-- The parse_objects binding, core.cpp lines 636-645: every record of the
batch that is not encrypted is parsed, in order; encrypted records are
skipped. -/
def parse_objects : List record → List object_set
  | [] => []
  | rec :: rest =>
    if rec.isencrypted then parse_objects rest
    else dl_parse_objects rec.data :: parse_objects rest

/-- stream::reindex, io.cpp lines 415-434: reject empty tells, empty
residuals or mismatched sizes with std::invalid_argument, then install the
new index.  The all-positive assertion is a TODO at line 431 and is not
performed. -/
def stream.reindex (s : stream) (tells residuals : List Int) :
    Except Err stream :=
  if tells.isEmpty then .error .invalidArgument
  else if residuals.isEmpty then .error .invalidArgument
  else if tells.length ≠ residuals.length then .error .invalidArgument
  else .ok { s with tells := tells, residuals := residuals }

/-- One entry of dl::stream_offsets: a tell (relative to the end of the
scanned region until findoffsets rebases it at io.cpp lines 198-199), its
residual and its explicit-format flag. -/
structure indexEntry where
  tell : Int
  residual : Int
  explicitFlag : Bool
deriving DecidableEq, Repr

/-- Modelled from the spec: dlis_index_records (§4.2) is part of the C
library, which is not under src/.  It scans visible records and logical
record segments from `cursor`, appends one index entry per segment without a
predecessor, and returns control to the caller either at the end of the
region or as soon as `allocsize` entries have been written — the caller in
io.cpp lines 153-194 reallocates and re-invokes with the returned cursor and
residual, so the capacity return is part of its contract.  Tells are written
relative to the end of the region. -/
def dlis_index_records (file : List Nat) (allocsize : Nat) :
    Nat → Nat → Int → Nat → List indexEntry →
    Except Err (List indexEntry × Nat × Int)
  | 0, _, _, _, _ => .error .fuelOut
  | fuel + 1, cursor, residual, count, acc =>
    if cursor = file.length then .ok (acc, cursor, residual)
    else if count = allocsize then .ok (acc, cursor, residual)
    else if residual = 0 then
      match readBytes file cursor 4 with
      | none => .error .truncated
      | some buffer =>
        let (len, _version, _err) := dlis_vrl buffer
        if len < 4 then .error .unexpectedValue
        else
          dlis_index_records file allocsize fuel (cursor + 4)
            ((len : Int) - 4) count acc
    else
      match readBytes file cursor 4 with
      | none => .error .truncated
      | some buffer =>
        let (len, attrs, _ty, _lrshErr) := dlis_lrsh buffer
        if len < 4 then .error .unexpectedValue
        else
          let newEntry := attrs &&& DLIS_SEGATTR_PREDSEG = 0
          let acc := if newEntry then
              acc ++ [⟨(cursor : Int) - file.length, residual,
                       attrs &&& DLIS_SEGATTR_EXFMTLR ≠ 0⟩]
            else acc
          let count := if newEntry then count + 1 else count
          let residual := residual - len
          if residual < 0 then .error .inconsistent
          else if cursor + len > file.length then .error .truncated
          else dlis_index_records file allocsize fuel (cursor + len)
            residual count acc

/-- One invocation of dlis_index_records as issued by findoffsets: the scan
loop advances the cursor by at least 4 bytes per iteration, so the region
length bounds its iterations. -/
def dlis_index_records_run (file : List Nat) (allocsize cursor : Nat)
    (residual : Int) : Except Err (List indexEntry × Nat × Int) :=
  dlis_index_records file allocsize (file.length + 1) cursor residual 0 []

/-- The reallocation loop of dl::findoffsets, io.cpp lines 153-194: invoke the
indexer on the trailing newly-allocated area, stop when it reached the end of
the file, otherwise grow the vectors to size_t(prev * 1.5) and re-invoke on
the fresh trailing area.  The source loop is while (true), so the fuel is
explicit. -/
def findoffsetsLoop (file : List Nat) :
    Nat → Nat → Nat → Nat → Int → List indexEntry →
    Except Err (List indexEntry)
  | 0, _, _, _, _, _ => .error .fuelOut
  | fuel + 1, cursor, allocSize, capacity, residual, entries =>
    match dlis_index_records_run file allocSize cursor residual with
    | .error e => .error e
    | .ok (fresh, next, residual') =>
      let entries := entries ++ fresh
      if next = file.length then .ok entries
      else
        let prevSize := capacity
        let capacity := prevSize * 3 / 2
        let allocSize := capacity - prevSize
        findoffsetsLoop file fuel next allocSize capacity residual' entries

/-- dl::findoffsets, io.cpp lines 132-202: initial allocation
file.size() / 4196, the reallocation loop above, and finally every tell is
rebased by the file size (lines 198-199). -/
def findoffsets (file : List Nat) (fromPos fuel : Nat) :
    Except Err (List indexEntry) :=
  let allocSize := file.length / 4196
  match findoffsetsLoop file fuel fromPos allocSize allocSize 0 [] with
  | .error e => .error e
  | .ok entries =>
    .ok (entries.map fun e => { e with tell := e.tell + file.length })

/-- The trailing-length step in the spec's wording (§4.3 step 3): if
HAS_TRAILING_LENGTH, drop the last two bytes of the payload. -/
def stripTrailingLength (attrs : Nat) (d : List Nat) : List Nat :=
  if attrs &&& DLIS_SEGATTR_TRAILEN ≠ 0 then d.dropLast.dropLast else d

/-- The checksum step in the spec's wording (§4.3 step 4): if HAS_CHECKSUM,
drop two more bytes. -/
def stripChecksum (attrs : Nat) (d : List Nat) : List Nat :=
  if attrs &&& DLIS_SEGATTR_CHCKSUM ≠ 0 then d.dropLast.dropLast else d

/-- The padding step in the spec's wording (§4.3 step 5): if HAS_PADDING, read
the last byte as the pad count p and drop the trailing p bytes, the pad-count
byte among them. -/
def stripPadding (attrs : Nat) (d : List Nat) : List Nat :=
  if attrs &&& DLIS_SEGATTR_PADDING ≠ 0 then
    (d.reverse.drop (d.getLastD 0)).reverse
  else d

/-- Chopping two bytes is dropping the last element twice. -/
lemma chop_two_eq_dropLast (d : List Nat) :
    chop d 2 = d.dropLast.dropLast := by
  simp only [chop, List.dropLast_eq_take, List.take_take, List.length_take]
  congr 1
  omega

/-- Chopping p bytes is dropping p elements off the reversed list. -/
lemma chop_eq_reverse_drop (d : List Nat) (p : Nat) :
    chop d p = (d.reverse.drop p).reverse := by
  simp [chop, List.drop_reverse]

/-- The concrete streams used to evaluate the embedded code at specific
inputs.  c2stream: one visible record of length 20 holding one logical record
segment (length 16, attribute byte 144 = EXPLICIT_FORMAT|ENCRYPTED, type byte
5) with a 12-byte body. -/
def c2stream : stream :=
  ⟨[0, 20, 255, 1, 0, 16, 144, 5,
    160, 161, 162, 163, 164, 165, 166, 167, 168, 169, 170, 171],
   [4], [16], true⟩

/-- One visible record holding a two-segment logical record whose segments
carry type bytes 5 and 6. -/
def c3stream : stream :=
  ⟨[0, 20, 255, 1, 0, 8, 32, 5, 1, 2, 3, 4, 0, 8, 64, 6, 5, 6, 7, 8],
   [4], [16], true⟩

/-- One visible record holding one encrypted logical record segment
(attribute byte 16 = ENCRYPTED). -/
def c1stream : stream :=
  ⟨[0, 20, 255, 1, 0, 16, 16, 7,
    1, 2, 3, 4, 5, 6, 7, 8, 9, 10, 11, 12],
   [4], [16], true⟩

/-- A two-segment logical record split across two visible records; the second
visible record header carries format-version byte 2. -/
def c7stream : stream :=
  ⟨[0, 12, 255, 1, 0, 8, 32, 5, 1, 2, 3, 4,
    0, 12, 255, 2, 0, 8, 64, 5, 5, 6, 7, 8],
   [4], [8], true⟩

/-- A stream with an empty byte source, used to exercise reindex. -/
def c8stream : stream := ⟨[], [0], [0], true⟩

/-- A single padded segment (attribute byte 1 = HAS_PADDING) whose one-byte
body is the pad count 3, so stripping reaches past the segment's own body. -/
def c10stream : stream := ⟨[0, 5, 1, 7, 3], [0], [5], true⟩

/-- C4: for every segment appended during reassembly, stream::at strips the
trailers in the order trailing length, then checksum, then padding — the
source's chop sequence equals the composition of the three spec steps — and
on the body aa bb cc dd 03 with HAS_PADDING the payload is aa bb (the three
trailing bytes, pad-count byte included, are stripped); with
HAS_TRAILING_LENGTH and HAS_PADDING together on aa bb 02 99 99 the trailing
length is removed before the pad count is read, leaving aa. -/
theorem trimSegment_strips_in_spec_order :
    (∀ attrs d, trimSegment attrs d =
        stripPadding attrs (stripChecksum attrs (stripTrailingLength attrs d)))
      ∧ trimSegment DLIS_SEGATTR_PADDING [0xaa, 0xbb, 0xcc, 0xdd, 0x03]
          = [0xaa, 0xbb]
      ∧ trimSegment (DLIS_SEGATTR_TRAILEN ||| DLIS_SEGATTR_PADDING)
          [0xaa, 0xbb, 0x02, 0x99, 0x99] = [0xaa] := by
  refine ⟨fun attrs d => ?_, by decide, by decide⟩
  simp only [trimSegment, stripTrailingLength, stripChecksum, stripPadding]
  split_ifs <;>
    simp only [← chop_two_eq_dropLast, ← chop_eq_reverse_drop]

/-- C2 (code bug): on a single-segment logical record whose LRSH carries type
byte 5, stream::at returns a record whose type field is 0, not 5 — the source
declares a `types` accumulator (io.cpp line 277) and reads its front
(line 395) but never pushes into it.  The attribute half of the claim does
hold on this input: the returned attributes are the first segment's byte 144
masked to EXPLICIT_FORMAT|ENCRYPTED = 144. -/
theorem at_returns_zero_type :
    c2stream.at1 0 = .ok { data := [160, 161, 162, 163, 164, 165,
                                    166, 167, 168, 169, 170, 171],
                           attributes := 144, type := 0, consistent := true }
      ∧ c2stream.file.getD 7 0 = 5 := ⟨rfl, rfl⟩

/-- C3 (code bug): stream::at returns consistent = true for a logical record
whose two segments carry different type bytes (5 at file offset 7, 6 at file
offset 15): attr_consistent and type_consistent (io.cpp lines 245-258) are
TODO stubs that always answer true. -/
theorem at_consistent_despite_type_mismatch :
    c3stream.at1 0 = .ok { data := [1, 2, 3, 4, 5, 6, 7, 8],
                           attributes := 0, type := 0, consistent := true }
      ∧ c3stream.file.getD 7 0 = 5
      ∧ c3stream.file.getD 15 0 = 6 := ⟨rfl, rfl, rfl⟩

/-- C1 (counterexample): extract returns a record with the ENCRYPTED
attribute bit set when an index refers to an encrypted logical record — no
filtering happens in the extract binding. -/
theorem extract_returns_encrypted_record :
    c1stream.extract [0]
        = .ok [{ data := [1, 2, 3, 4, 5, 6, 7, 8, 9, 10, 11, 12],
                 attributes := 16, type := 0, consistent := true }]
      ∧ record.isencrypted { data := [1, 2, 3, 4, 5, 6, 7, 8, 9, 10, 11, 12],
                             attributes := 16, type := 0, consistent := true }
          = true := ⟨rfl, rfl⟩

/-- C6 (counterexample): a record whose EXPLICIT_FORMAT bit is clear (and
ENCRYPTED is clear) still contributes an object set — the parse_objects
binding only skips encrypted records and never consults EXPLICIT_FORMAT. -/
theorem parse_objects_includes_non_explicit :
    parse_objects [{ data := [17], attributes := 0, type := 0,
                     consistent := true }]
        = [{ payload := [17] }]
      ∧ record.isexplicit { data := [17], attributes := 0, type := 0,
                            consistent := true } = false := ⟨rfl, rfl⟩

/-- C7 (counterexample): a visible record header with format-version byte 2
(file offset 15) encountered while reassembling does not raise: stream::at
returns the record, merely with consistent = false. -/
theorem at_returns_record_on_vrl_version_2 :
    c7stream.at1 0 = .ok { data := [1, 2, 3, 4, 5, 6, 7, 8],
                           attributes := 0, type := 0, consistent := false }
      ∧ c7stream.file.getD 15 0 = 2 := ⟨rfl, rfl⟩

/-- C8 (code bug): reindex accepts a negative tell and installs it — the
all-positive assertion is a TODO at io.cpp line 431 — while the three checks
it does perform (empty tells, empty residuals, mismatched sizes) all raise
std::invalid_argument. -/
theorem reindex_accepts_negative_tell :
    c8stream.reindex [-1] [0] = .ok ⟨[], [-1], [0], true⟩
      ∧ c8stream.reindex [] [] = .error .invalidArgument
      ∧ c8stream.reindex [1] [] = .error .invalidArgument
      ∧ c8stream.reindex [1] [2, 3] = .error .invalidArgument :=
  ⟨rfl, rfl, rfl, rfl⟩

/-- C10 (counterexample): the two-argument stream::at on a record whose data
already holds [170, 187] returns a record whose data is empty — the padded
segment's pad count 3 exceeds its own one-byte body, and chop (clamping at
zero, io.cpp lines 282-291) consumes the prior bytes — so the prior contents
are not a prefix of the result. -/
theorem at2_padding_consumes_prior_bytes :
    c10stream.at2 0 [170, 187]
        = .ok { data := [], attributes := 0, type := 0, consistent := true }
      ∧ ([170, 187] : List Nat).isPrefixOf [] = false := ⟨rfl, rfl⟩

/-- C6 amended: parse_objects parses exactly the records whose ENCRYPTED bit
is clear, in order; EXPLICIT_FORMAT is never consulted. -/
theorem parse_objects_skips_only_encrypted (recs : List record) :
    parse_objects recs
      = (recs.filter fun r => !r.isencrypted).map
          fun r => dl_parse_objects r.data := by
  induction recs with
  | nil => rfl
  | cons r rest ih =>
    by_cases h : r.isencrypted <;> simp [parse_objects, h, ih]

/-- extractGo with a non-empty accumulator prepends it to the result of the
empty-accumulator run. -/
lemma extractGo_eq_map (s : stream) (is : List Nat) (acc : List record) :
    extractGo s is acc = (extractGo s is []).map (acc ++ ·) := by
  induction is generalizing acc with
  | nil => simp [extractGo, Except.map]
  | cons i rest ih =>
    cases h : s.at1 i with
    | error e => simp [extractGo, h, Except.map]
    | ok r =>
      simp only [extractGo, h, List.nil_append]
      rw [ih (acc ++ [r]), ih [r]]
      cases hr : extractGo s rest [] <;> simp [Except.map]

/-- C1 amended: extract applies at to every requested index in order and
pushes every returned record with no filtering, so records with the ENCRYPTED
attribute bit set are returned like any other (filtering happens downstream:
parse_objects skips them). -/
theorem extract_no_filter (s : stream) (i : Nat) (is : List Nat) (r : record)
    (rs : List record) (h1 : s.at1 i = .ok r) (h2 : s.extract is = .ok rs) :
    s.extract (i :: is) = .ok (r :: rs) := by
  unfold stream.extract at h2 ⊢
  simp only [extractGo, h1, List.nil_append]
  rw [extractGo_eq_map, h2]
  simp [Except.map]

/-- Witness for extract_no_filter: instantiated on c1stream, whose only
record is encrypted, at index 0 with an empty tail. -/
theorem extract_no_filter_witness :
    c1stream.extract [0]
      = .ok [{ data := [1, 2, 3, 4, 5, 6, 7, 8, 9, 10, 11, 12],
               attributes := 16, type := 0, consistent := true }] :=
  extract_no_filter c1stream 0 []
    { data := [1, 2, 3, 4, 5, 6, 7, 8, 9, 10, 11, 12],
      attributes := 16, type := 0, consistent := true } [] rfl rfl

/-- A continuing atStep never repairs a recorded inconsistency. -/
lemma atStep_consistent_inl (s : stream) (i : Nat) (st st' : atState)
    (hc : st.consistent = false) (h : s.atStep i st = .ok (.inl st')) :
    st'.consistent = false := by
  unfold stream.atStep at h
  simp only [] at h
  repeat' split at h
  all_goals first
    | exact Except.noConfusion h
    | (cases h; simp_all [dlis_lrsh])
    | simp_all [dlis_lrsh]

/-- A returning atStep never repairs a recorded inconsistency. -/
lemma atStep_consistent_inr (s : stream) (i : Nat) (st : atState)
    (r : record) (hc : st.consistent = false)
    (h : s.atStep i st = .ok (.inr r)) : r.consistent = false := by
  unfold stream.atStep at h
  simp only [] at h
  repeat' split at h
  all_goals first
    | exact Except.noConfusion h
    | (cases h; simp_all [dlis_lrsh])
    | simp_all [dlis_lrsh]

/-- Once the stream::at loop has recorded an inconsistency, any record it
still returns keeps consistent = false. -/
lemma atLoop_consistent_absorbs (s : stream) (i : Nat) :
    ∀ fuel st r, st.consistent = false → s.atLoop i fuel st = .ok r →
      r.consistent = false := by
  intro fuel
  induction fuel with
  | zero => intro st r _ h; exact absurd h (by simp [stream.atLoop])
  | succ n ih =>
    intro st r hc h
    unfold stream.atLoop at h
    cases hs : s.atStep i st with
    | error e => rw [hs] at h; exact absurd h (by simp)
    | ok v =>
      rw [hs] at h
      cases v with
      | inl st' => exact ih st' r (atStep_consistent_inl s i st st' hc hs) h
      | inr r' =>
        cases h
        exact atStep_consistent_inr s i st r hc hs

/-- Reading a visible-record header whose format-version byte is not 1
continues the loop with the consistency flag cleared. -/
lemma atStep_vrl_version_ne_one (s : stream) (i : Nat) (st : atState)
    (b : List Nat) (hrem : ¬ st.remaining > 0)
    (hread : readBytes s.file st.pos 4 = some b) (hver : b.getD 3 0 ≠ 1) :
    ∃ st', s.atStep i st = .ok (.inl st') ∧ st'.consistent = false := by
  unfold stream.atStep
  rw [if_neg hrem, hread]
  have hver' : b[3]?.getD 0 ≠ 1 := by simpa [List.getD] using hver
  exact ⟨_, rfl, by simp [dlis_vrl, hver']⟩

/-- C7 amended: a visible record header with format-version byte other than 1
encountered during reassembly in stream::at does not raise; the loop records
the inconsistency and any record it returns carries consistent = false. -/
theorem at_vrl_version_ne_one_marks_inconsistent (s : stream) (i fuel : Nat)
    (st : atState) (b : List Nat) (r : record)
    (hrem : ¬ st.remaining > 0)
    (hread : readBytes s.file st.pos 4 = some b)
    (hver : b.getD 3 0 ≠ 1)
    (hok : s.atLoop i (fuel + 1) st = .ok r) :
    r.consistent = false := by
  obtain ⟨st', hstep, hc⟩ := atStep_vrl_version_ne_one s i st b hrem hread hver
  unfold stream.atLoop at hok
  rw [hstep] at hok
  exact atLoop_consistent_absorbs s i fuel st' r hc hok

/-- Witness for at_vrl_version_ne_one_marks_inconsistent: the state of
c7stream's reassembly at the version-2 visible record boundary (cursor 12,
nothing left of the first visible record). -/
theorem at_vrl_version_ne_one_witness :
    (¬ (0 : Int) > 0)
      ∧ ({ data := [1, 2, 3, 4, 5, 6, 7, 8], attributes := 0, type := 0,
           consistent := false } : record).consistent = false :=
  ⟨by decide,
   at_vrl_version_ne_one_marks_inconsistent c7stream 0 4
     { pos := 12, remaining := 0, data := [1, 2, 3, 4], attributes := [32],
       types := [], consistent := true }
     [0, 12, 255, 2]
     { data := [1, 2, 3, 4, 5, 6, 7, 8], attributes := 0, type := 0,
       consistent := false }
     (by decide) (by decide) (by decide) rfl⟩

/-- With zero capacity and a cursor anywhere but the end of the region, the
indexer returns immediately with nothing written and the cursor unmoved. -/
lemma dlis_index_records_zero_alloc (file : List Nat) (cursor : Nat)
    (residual : Int) (hne : cursor ≠ file.length) :
    dlis_index_records_run file 0 cursor residual = .ok ([], cursor, residual) := by
  unfold dlis_index_records_run dlis_index_records
  simp [hne]

/-- The findoffsets reallocation loop never terminates once its capacity is
zero and the cursor is not at the end: 1.5 × 0 is 0, so every iteration
re-invokes the indexer with zero capacity and the same cursor. -/
lemma findoffsetsLoop_zero_alloc (file : List Nat) :
    ∀ (fuel cursor : Nat) (residual : Int) (entries : List indexEntry),
      cursor ≠ file.length →
      findoffsetsLoop file fuel cursor 0 0 residual entries
        = .error .fuelOut := by
  intro fuel
  induction fuel with
  | zero => intro cursor residual entries _; rfl
  | succ n ih =>
    intro cursor residual entries hne
    unfold findoffsetsLoop
    rw [dlis_index_records_zero_alloc file cursor residual hne]
    simp only [List.append_nil, if_neg hne]
    exact ih cursor residual entries hne

/-- C9 (code bug): on a byte source smaller than 4196 bytes the initial
allocation file.size() / 4196 is zero, size_t(0 * 1.5) stays zero, and
findoffsets re-invokes the indexer forever with zero capacity and an unmoved
cursor: for every iteration budget the loop runs dry instead of terminating
(whenever the scan does not start exactly at the end of the region). -/
theorem findoffsets_small_file_never_terminates (file : List Nat)
    (fromPos fuel : Nat) (hsmall : file.length < 4196)
    (hne : fromPos ≠ file.length) :
    findoffsets file fromPos fuel = .error .fuelOut := by
  have halloc : file.length / 4196 = 0 := Nat.div_eq_of_lt hsmall
  unfold findoffsets
  rw [halloc]
  simp only []
  rw [findoffsetsLoop_zero_alloc file fuel fromPos 0 [] hne]

/-- Witness for findoffsets_small_file_never_terminates: the 20-byte file of
c2stream (one visible record with one segment) scanned from offset 0 with a
budget of 37 iterations. -/
theorem findoffsets_small_file_never_terminates_witness :
    c2stream.file.length < 4196 ∧ (0 : Nat) ≠ c2stream.file.length
      ∧ findoffsets c2stream.file 0 37 = .error .fuelOut :=
  ⟨by decide, by decide,
   findoffsets_small_file_never_terminates c2stream.file 0 37
     (by decide) (by decide)⟩

/-- A segment with no attribute flags leaves the accumulated payload
untouched. -/
lemma trimSegment_zero (d : List Nat) : trimSegment 0 d = d := by
  simp [trimSegment, DLIS_SEGATTR_TRAILEN, DLIS_SEGATTR_CHCKSUM,
        DLIS_SEGATTR_PADDING]

/-- A stream holding a single one-segment logical record with no attribute
flags: an LRSH of length body.length + 4 and type byte 7 followed by the
body, indexed by tells = [0] with the whole segment length as residual. -/
def singleSegment (body : List Nat) : stream :=
  ⟨[(body.length + 4) / 256, (body.length + 4) % 256, 0, 7] ++ body,
   [0], [(body.length : Int) + 4], true⟩

lemma singleSegment_atStep (prior body : List Nat)
    (h : body.length + 4 ≤ 65535) :
    (singleSegment body).atStep 0
        { pos := 0, remaining := (body.length : Int) + 4, data := prior,
          attributes := [], types := [], consistent := true }
      = .ok (.inr { data := prior ++ body, attributes := 0, type := 0,
                    consistent := true }) := by
  have hL : (body.length + 4) / 256 * 256 + (body.length + 4) % 256
      = body.length + 4 := by omega
  have hpos : ((0 : Int) < (body.length : Int) + 4) := by omega
  have hread4 : readBytes (singleSegment body).file 0 4
      = some [(body.length + 4) / 256, (body.length + 4) % 256, 0, 7] := by
    simp [readBytes, singleSegment]
  have hreadBody : readBytes (singleSegment body).file 4 (body.length + 4 - 4)
      = some body := by
    simp only [readBytes, singleSegment, List.cons_append, List.nil_append,
               List.length_cons, List.drop_succ_cons, List.drop_zero]
    rw [if_pos (by omega)]
    simp [Nat.add_sub_cancel]
  unfold stream.atStep
  rw [if_pos hpos, hread4]
  simp only [dlis_lrsh, List.getD_cons_zero, List.getD_cons_succ, hL,
             Nat.zero_add]
  rw [if_neg (by omega), if_neg (by omega), hreadBody]
  simp [trimSegment_zero, consumed_record, singleSegment,
        DLIS_SEGATTR_SUCCSEG, DLIS_SEGATTR_EXFMTLR, DLIS_SEGATTR_ENCRYPT]

/-- C10 amended: the two-argument stream::at never clears rec.data: it
appends each segment body after the bytes already present — on a segment
whose trailers strip nothing the result is exactly the prior contents
followed by the body — while the one-argument at is by definition the
two-argument overload started on a fresh record.  (When trailer stripping
exceeds a segment's own body, the clamped chop consumes prior bytes — see the
counterexample — so the prior contents are a prefix only in the absence of
such overruns.) -/
theorem at2_appends_to_prior (prior body : List Nat)
    (h : body.length + 4 ≤ 65535) :
    (singleSegment body).at2 0 prior
        = .ok { data := prior ++ body, attributes := 0, type := 0,
                consistent := true }
      ∧ ∀ (s : stream) (i : Nat), s.at1 i = s.at2 i [] := by
  refine ⟨?_, fun s i => rfl⟩
  have hstep := singleSegment_atStep prior body h
  have htells : (singleSegment body).tells[0]? = some 0 := rfl
  have hres : (singleSegment body).residuals[0]?
      = some ((body.length : Int) + 4) := rfl
  have hfuel : (singleSegment body).atFuel
      = body.length + 1 + 1 + 1 + 1 + 1 := rfl
  unfold stream.at2
  simp only [htells, hres, Int.toNat_zero, hfuel]
  rw [if_neg (lt_irrefl 0)]
  simp only [stream.atLoop]
  rw [hstep]

/-- Witness for at2_appends_to_prior: prior contents [5, 6] and body
[9, 8, 7]. -/
theorem at2_appends_to_prior_witness :
    (singleSegment [9, 8, 7]).at2 0 [5, 6]
        = .ok { data := [5, 6, 9, 8, 7], attributes := 0, type := 0,
                consistent := true } :=
  (at2_appends_to_prior [5, 6] [9, 8, 7] (by decide)).1

/-- An occurrence of the literal RECORD inside the findsul search window: the
needle is a prefix of the file from position i, and the occurrence lies
entirely within the first 200 bytes. -/
def sulOccurrence (file : List Nat) (i : Nat) : Prop :=
  RECORDneedle <+: file.drop i ∧ i + 6 ≤ 200

/-- searchBytes finds exactly the least position at which the needle is a
prefix of the remaining window. -/
lemma searchBytes_eq_some (w nd : List Nat) :
    ∀ i, searchBytes w nd = some i ↔
      (nd <+: w.drop i ∧ ∀ j < i, ¬ nd <+: w.drop j) := by
  induction w with
  | nil =>
    intro i
    by_cases h : nd.isPrefixOf ([] : List Nat)
    · have hnd : nd = [] := List.prefix_nil.mp ( List.isPrefixOf_iff_prefix.mp h)
      subst hnd
      rw [searchBytes, if_pos h]
      constructor
      · intro he
        have h0 : i = 0 := by simpa using he.symm
        subst h0
        exact ⟨ List.nil_prefix, by omega⟩
      · rintro ⟨-, h2⟩
        rcases Nat.eq_zero_or_pos i with rfl | hpos
        · rfl
        · exact absurd List.nil_prefix (h2 0 hpos)
    · rw [searchBytes, if_neg h]
      constructor
      · intro he; exact Option.noConfusion he
      · rintro ⟨h1, -⟩
        have hnd : nd = [] := List.prefix_nil.mp (by simpa using h1)
        subst hnd
        exact absurd ( List.isPrefixOf_iff_prefix.mpr List.nil_prefix) h
  | cons a t ih =>
    intro i
    by_cases h : nd.isPrefixOf (a :: t)
    · rw [searchBytes, if_pos h]
      have hp : nd <+: a :: t := List.isPrefixOf_iff_prefix.mp h
      constructor
      · intro he
        have h0 : i = 0 := by simpa using he.symm
        subst h0
        exact ⟨by simpa using hp, by omega⟩
      · rintro ⟨h1, h2⟩
        rcases Nat.eq_zero_or_pos i with rfl | hpos
        · rfl
        · exact absurd (by simpa using hp) (h2 0 hpos)
    · rw [searchBytes, if_neg h]
      have hnp : ¬ nd <+: a :: t := fun hp =>
        h ( List.isPrefixOf_iff_prefix.mpr hp)
      constructor
      · intro he
        rcases Option.map_eq_some'.mp he with ⟨i', hi', rfl⟩
        rcases (ih i').mp hi' with ⟨h1, h2⟩
        refine ⟨by simpa using h1, ?_⟩
        intro j hj
        cases j with
        | zero => simpa using hnp
        | succ m =>
          have hm : m < i' := by omega
          simpa using h2 m hm
      · rintro ⟨h1, h2⟩
        cases i with
        | zero => exact absurd (by simpa using h1) hnp
        | succ k =>
          apply Option.map_eq_some'.mpr
          refine ⟨k, (ih k).mpr ⟨by simpa using h1, ?_⟩, rfl⟩
          intro m hm
          have hmk := h2 (m + 1) (by omega)
          simpa using hmk

/-- searchBytes answers none exactly when the needle occurs nowhere in the
window. -/
lemma searchBytes_eq_none (w nd : List Nat) :
    searchBytes w nd = none ↔ ∀ i, ¬ nd <+: w.drop i := by
  constructor
  · intro h i hp
    have hex : ∃ j, nd <+: w.drop j := ⟨i, hp⟩
    have hsome := (searchBytes_eq_some w nd (Nat.find hex)).mpr
      ⟨Nat.find_spec hex, fun j hj => Nat.find_min hex hj⟩
    rw [h] at hsome
    exact Option.noConfusion hsome
  · intro hall
    cases hs : searchBytes w nd with
    | none => rfl
    | some i => exact absurd ((searchBytes_eq_some w nd i).mp hs).1 (hall i)

/-- Occurrences inside the take-min-200 window are exactly sulOccurrence. -/
lemma prefix_window_iff (file : List Nat) (i : Nat) :
    RECORDneedle <+: (file.take (min file.length 200)).drop i
      ↔ sulOccurrence file i := by
  rw [List.drop_take, List.prefix_take_iff]
  unfold sulOccurrence
  constructor
  · rintro ⟨hp, hlen⟩
    refine ⟨hp, ?_⟩
    have hle : RECORDneedle.length ≤ (file.drop i).length := hp.length_le
    simp only [List.length_drop] at hle
    have h6 : RECORDneedle.length = 6 := rfl
    rw [h6] at hlen hle
    omega
  · rintro ⟨hp, h200⟩
    refine ⟨hp, ?_⟩
    have hle : RECORDneedle.length ≤ (file.drop i).length := hp.length_le
    simp only [List.length_drop] at hle
    have h6 : RECORDneedle.length = 6 := rfl
    rw [h6] at hle ⊢
    omega

/-- C5: findsul returns the position of the first occurrence of the literal
RECORD within the first 200 bytes minus 9; it fails not_found when RECORD
does not occur within the first 200 bytes, and fails with the structural
inconsistency error when the first occurrence sits strictly before byte 9. -/
theorem findsul_spec (file : List Nat) :
    (∀ off, findsul file = .ok off ↔
        ∃ i, sulOccurrence file i ∧ (∀ j < i, ¬ sulOccurrence file j)
          ∧ 9 ≤ i ∧ off = i - 9)
      ∧ (findsul file = .error .notFound ↔ ∀ i, ¬ sulOccurrence file i)
      ∧ (findsul file = .error .inconsistent ↔
          ∃ i, sulOccurrence file i ∧ (∀ j < i, ¬ sulOccurrence file j)
            ∧ i < 9) := by
  unfold findsul
  simp only []
  cases hs : searchBytes (file.take (min file.length 200)) RECORDneedle with
  | none =>
    have hno : ∀ i, ¬ sulOccurrence file i := fun i hocc =>
      (searchBytes_eq_none _ _).mp hs i ((prefix_window_iff file i).mpr hocc)
    refine ⟨?_, ?_, ?_⟩
    · intro off
      constructor
      · intro h; exact Except.noConfusion h
      · rintro ⟨i, hocc, -, -, -⟩; exact absurd hocc (hno i)
    · simpa using hno
    · constructor
      · intro h; simp at h
      · rintro ⟨i, hocc, -, -⟩; exact absurd hocc (hno i)
  | some i =>
    simp only []
    have hfirst := (searchBytes_eq_some _ _ i).mp hs
    have hocc : sulOccurrence file i := (prefix_window_iff file i).mp hfirst.1
    have hmin : ∀ j < i, ¬ sulOccurrence file j := fun j hj hocc' =>
      hfirst.2 j hj ((prefix_window_iff file j).mpr hocc')
    have huniq : ∀ i', sulOccurrence file i' →
        (∀ j < i', ¬ sulOccurrence file j) → i' = i := by
      intro i' h1 h2
      rcases Nat.lt_trichotomy i' i with h | h | h
      · exact absurd h1 (hmin i' h)
      · exact h
      · exact absurd hocc (h2 i h)
    by_cases hlt : i < 9
    · rw [if_pos hlt]
      refine ⟨?_, ?_, ?_⟩
      · intro off
        constructor
        · intro h; exact Except.noConfusion h
        · rintro ⟨i', h1, h2, h3, -⟩
          have := huniq i' h1 h2
          omega
      · constructor
        · intro h; simp at h
        · intro hall; exact absurd hocc (hall i)
      · exact ⟨fun _ => ⟨i, hocc, hmin, hlt⟩, fun _ => rfl⟩
    · rw [if_neg hlt]
      refine ⟨?_, ?_, ?_⟩
      · intro off
        constructor
        · intro h
          have hoff : i - 9 = off := by simpa using h
          exact ⟨i, hocc, hmin, by omega, hoff.symm⟩
        · rintro ⟨i', h1, h2, -, hoff⟩
          have he := huniq i' h1 h2
          subst he
          rw [hoff]
      · constructor
        · intro h; simp at h
        · intro hall; exact absurd hocc (hall i)
      · constructor
        · intro h; simp at h
        · rintro ⟨i', h1, h2, h3⟩
          have := huniq i' h1 h2
          omega
